import Mathlib

/-!
Verification of the QUIC transport core (varint codec, packet-header codec,
frame codec, stream engine, CUBIC congestion controller) by shallow embedding
of the Go source into Lean.  Bytes are modelled as `Nat` (values `< 256` where
produced by the encoders); Go `uint64` arithmetic is modelled as `Nat` with
explicit `% 2^64` where overflow can occur; Go functions returning
`(T, error)` become `Option T`.
-/

namespace QUIC

/-- Big-endian accumulation loop: `value = (value << 8) | b` over a byte list,
mirroring the packet-number / varint decode loops in `header.go`. -/
def beLoop : List Nat → Nat → Nat
  | [], acc => acc
  | b :: bs, acc => beLoop bs ((acc <<< 8) ||| b)

/-- `parseVarint` from `internal/packet/header.go`: byte 0's top two bits give
the total length `1 <<< ((b0 &&& 0xC0) >>> 6)`; the low 6 bits of byte 0 and
the following `length - 1` bytes carry the value big-endian.  `none` models
`io.ErrUnexpectedEOF`. -/
def parseVarint (data : List Nat) : Option (Nat × Nat) :=
  match data with
  | [] => none
  | b0 :: rest =>
    let length := 1 <<< ((b0 &&& 0xC0) >>> 6)
    if (b0 :: rest).length < length then none
    else some (beLoop (rest.take (length - 1)) (b0 &&& 0x3F), length)

/-- `putVarint` from `internal/packet/header.go`: writes the 1/2/4/8-byte
form selected by the value's range into a buffer of length `bufLen`,
returning the bytes written (`byte(x)` is modelled as `x % 256`).
`none` models `io.ErrShortBuffer` / the value-too-large error. -/
def putVarint (bufLen value : Nat) : Option (List Nat) :=
  if value ≤ 0x3F then
    if bufLen < 1 then none
    else some [value % 256]
  else if value ≤ 0x3FFF then
    if bufLen < 2 then none
    else some [((value >>> 8) ||| 0x40) % 256, value % 256]
  else if value ≤ 0x3FFFFFFF then
    if bufLen < 4 then none
    else some [((value >>> 24) ||| 0x80) % 256, (value >>> 16) % 256,
               (value >>> 8) % 256, value % 256]
  else if value ≤ 0x3FFFFFFFFFFFFFFF then
    if bufLen < 8 then none
    else some [((value >>> 56) ||| 0xC0) % 256, (value >>> 48) % 256,
               (value >>> 40) % 256, (value >>> 32) % 256,
               (value >>> 24) % 256, (value >>> 16) % 256,
               (value >>> 8) % 256, value % 256]
  else none

/-- `varintLen` from `internal/stream/stream.go` (frame codec file): the
number of bytes `putVarint` uses for a value. -/
def varintLen (value : Nat) : Nat :=
  if value ≤ 0x3F then 1
  else if value ≤ 0x3FFF then 2
  else if value ≤ 0x3FFFFFFF then 4
  else 8

/-- A QUIC packet header (`Header` in `internal/packet/header.go`).
`type` holds the Go `PacketType` value; fields left unset by a parse path
keep Go's zero values (`0` / `[]`). -/
structure Header where
  type : Nat
  version : Nat
  destConnID : List Nat
  srcConnID : List Nat
  packetNumber : Nat
  token : List Nat
  length : Nat
  isLongHeader : Bool
deriving DecidableEq

/-- Shared tail of `parseLongHeader`: the length varint (already past the
Retry early-return) followed by the truncated packet number whose byte count
is `(firstByte &&& 0x03) + 1`. -/
def parseLongTail (data : List Nat) (firstByte ptype version : Nat)
    (destConnID srcConnID token : List Nat) (offset : Nat) :
    Option (Header × Nat) :=
  match parseVarint (data.drop offset) with
  | none => none
  | some (length, n) =>
    let o := offset + n
    let pnLen := (firstByte &&& 0x03) + 1
    if o + pnLen > data.length then none
    else
      let pn := beLoop ((data.drop o).take pnLen) 0
      some ({ type := ptype, version := version, destConnID := destConnID,
              srcConnID := srcConnID, packetNumber := pn, token := token,
              length := length, isLongHeader := true }, o + pnLen)

/-- `parseLongHeader` from `internal/packet/header.go`: version (4 bytes,
big-endian), 1-byte-length-prefixed connection ids, token (Initial only),
then the shared tail.  Retry returns before the length field.  Every read is
guarded by the source's explicit bounds checks. -/
def parseLongHeader (data : List Nat) (firstByte : Nat) :
    Option (Header × Nat) :=
  let ptype := (firstByte &&& 0x30) >>> 4
  if data.length < 5 then none
  else
    let version := beLoop ((data.drop 1).take 4) 0
    if data.length ≤ 5 then none
    else
      let destConnIDLen := data.getD 5 0
      if 6 + destConnIDLen > data.length then none
      else
        let destConnID := (data.drop 6).take destConnIDLen
        let o1 := 6 + destConnIDLen
        if data.length ≤ o1 then none
        else
          let srcConnIDLen := data.getD o1 0
          if o1 + 1 + srcConnIDLen > data.length then none
          else
            let srcConnID := (data.drop (o1 + 1)).take srcConnIDLen
            let o2 := o1 + 1 + srcConnIDLen
            if ptype = 0x00 then
              match parseVarint (data.drop o2) with
              | none => none
              | some (tokenLen, n) =>
                let o3 := o2 + n
                if o3 + tokenLen > data.length then none
                else
                  parseLongTail data firstByte ptype version destConnID
                    srcConnID ((data.drop o3).take tokenLen) (o3 + tokenLen)
            else if ptype = 0x03 then
              some ({ type := ptype, version := version,
                      destConnID := destConnID, srcConnID := srcConnID,
                      packetNumber := 0, token := [], length := 0,
                      isLongHeader := true }, o2)
            else
              parseLongTail data firstByte ptype version destConnID
                srcConnID [] o2

/-- `parseShortHeader` from `internal/packet/header.go`: a fixed 8-byte
destination connection id followed by the truncated packet number. -/
def parseShortHeader (data : List Nat) (firstByte : Nat) :
    Option (Header × Nat) :=
  if 1 + 8 > data.length then none
  else
    let destConnID := (data.drop 1).take 8
    let pnLen := (firstByte &&& 0x03) + 1
    if 9 + pnLen > data.length then none
    else
      let pn := beLoop ((data.drop 9).take pnLen) 0
      some ({ type := 0x40, version := 0, destConnID := destConnID,
              srcConnID := [], packetNumber := pn, token := [], length := 0,
              isLongHeader := false }, 9 + pnLen)

/-- `ParseHeader` from `internal/packet/header.go`: dispatches on bit 7 of the
first byte; `none` models the error returns. -/
def parseHeader (data : List Nat) : Option (Header × Nat) :=
  match data with
  | [] => none
  | firstByte :: _ =>
    if firstByte &&& 0x80 ≠ 0 then parseLongHeader data firstByte
    else parseShortHeader data firstByte

/-- `putVarint` with a buffer that is always long enough (every varint form
is at most 8 bytes).  The frame serializers of `stream.go` are given a buffer
sized to the whole frame, so each embedded `putVarint` call sees at least the
room it needs; `none` is then exactly the value-too-large error. -/
def vb (value : Nat) : Option (List Nat) := putVarint 8 value

/-- The frame kinds implemented by the codec in `internal/stream/stream.go`
(the file also holds the `packet`-package frame code): `AckFrame` (with its
`ECTCount` triple), `StreamFrame`, `CryptoFrame`, `ConnectionCloseFrame`,
`PingFrame`, `PaddingFrame`.  `ackRanges` is the `(Gap, Length)` list. -/
inductive Frame where
  | ack (largestAcked ackDelay : Nat) (ackRanges : List (Nat × Nat))
      (ectCount : Nat × Nat × Nat)
  | stream (streamID offset : Nat) (data : List Nat) (fin : Bool)
  | crypto (offset : Nat) (data : List Nat)
  | connClose (errorCode frameType : Nat) (reasonPhrase : List Nat)
      (isAppError : Bool)
  | ping
  | padding (paddingLength : Nat)
deriving DecidableEq

/-- The `Type()` methods: ACK upgrades to ACK_ECN when any ECN counter is
positive; STREAM ors in the FIN/LEN/OFF bits; CONNECTION_CLOSE picks the
application variant. -/
def Frame.type : Frame → Nat
  | .ack _ _ _ (e0, e1, e2) => if 0 < e0 ∨ 0 < e1 ∨ 0 < e2 then 0x03 else 0x02
  | .stream _ offset data fin =>
      ((0x08 ||| (if fin then 0x01 else 0)) |||
        (if 0 < data.length then 0x02 else 0)) |||
        (if 0 < offset then 0x04 else 0)
  | .crypto _ _ => 0x06
  | .connClose _ _ _ isAppError => if isAppError then 0x1d else 0x1c
  | .ping => 0x01
  | .padding _ => 0x00

/-- The ACK-range loop of `AckFrame.Serialize`: gap then length per range. -/
def serRanges : List (Nat × Nat) → Option (List Nat)
  | [] => some []
  | r :: rs => do
    let g ← vb r.1
    let l ← vb r.2
    let rest ← serRanges rs
    pure (g ++ l ++ rest)

/-- The `Serialize` methods of the frame kinds, as the bytes written to the
(exactly sized) buffer.  `PaddingFrame.Serialize` fills the buffer with
zeros and reports `PaddingLength`. -/
def serializeFrame : Frame → Option (List Nat)
  | .ack largestAcked ackDelay ackRanges ect => do
    let t ← vb (Frame.type (.ack largestAcked ackDelay ackRanges ect))
    let a ← vb largestAcked
    let d ← vb ackDelay
    let c ← vb ackRanges.length
    let rg ← serRanges ackRanges
    let ecn ←
      if Frame.type (.ack largestAcked ackDelay ackRanges ect) = 0x03 then do
        let e0 ← vb ect.1
        let e1 ← vb ect.2.1
        let e2 ← vb ect.2.2
        pure (e0 ++ e1 ++ e2)
      else pure []
    pure (t ++ a ++ d ++ c ++ rg ++ ecn)
  | .stream streamID offset data fin => do
    let t ← vb (Frame.type (.stream streamID offset data fin))
    let i ← vb streamID
    let o ← if 0 < offset then vb offset else pure []
    let l ← if 0 < data.length then vb data.length else pure []
    pure (t ++ i ++ o ++ l ++ data)
  | .crypto offset data => do
    let t ← vb 0x06
    let o ← vb offset
    let l ← vb data.length
    pure (t ++ o ++ l ++ data)
  | .connClose errorCode frameType reasonPhrase isAppError => do
    let t ← vb (Frame.type (.connClose errorCode frameType reasonPhrase
                  isAppError))
    let e ← vb errorCode
    let ft ← if isAppError then pure [] else vb frameType
    let rl ← vb reasonPhrase.length
    pure (t ++ e ++ ft ++ rl ++ reasonPhrase)
  | .ping => vb 0x01
  | .padding paddingLength => some (List.replicate paddingLength 0)

/-- Length of the run of zero bytes heading a list (the counting loop of
`parsePaddingFrame`). -/
def countZeros : List Nat → Nat
  | 0 :: rest => 1 + countZeros rest
  | _ => 0

/-- `parsePaddingFrame`: one byte of frame type plus the run of consecutive
zero bytes that follows. -/
def parsePaddingFrame (data : List Nat) (offset : Nat) :
    Option (Frame × Nat) :=
  let length := 1 + countZeros (data.drop offset)
  some (.padding length, length)

/-- The ACK-range parse loop, recursing on the announced range count and
returning the ranges and the offset after them. -/
def parseRanges (data : List Nat) : Nat → Nat →
    Option (List (Nat × Nat) × Nat)
  | offset, 0 => some ([], offset)
  | offset, count + 1 => do
    let (gap, n) ← parseVarint (data.drop offset)
    let (len, m) ← parseVarint (data.drop (offset + n))
    let (rest, o) ← parseRanges data (offset + n + m) count
    pure ((gap, len) :: rest, o)

/-- `parseAckFrame`: largest-acked, ack-delay, range count, ranges, then the
three ECN counters when the type code is ACK_ECN. -/
def parseAckFrame (data : List Nat) (offset : Nat) (frameType : Nat) :
    Option (Frame × Nat) := do
  let (largestAcked, n1) ← parseVarint (data.drop offset)
  let (ackDelay, n2) ← parseVarint (data.drop (offset + n1))
  let (rangeCount, n3) ← parseVarint (data.drop (offset + n1 + n2))
  let o3 := offset + n1 + n2 + n3
  let (ackRanges, o4) ← parseRanges data o3 rangeCount
  if frameType = 0x03 then
    let (e0, m0) ← parseVarint (data.drop o4)
    let (e1, m1) ← parseVarint (data.drop (o4 + m0))
    let (e2, m2) ← parseVarint (data.drop (o4 + m0 + m1))
    pure (.ack largestAcked ackDelay ackRanges (e0, e1, e2),
      o4 + m0 + m1 + m2 - offset)
  else
    pure (.ack largestAcked ackDelay ackRanges (0, 0, 0), o4 - offset)

/-- `parseStreamFrame`: stream id, then offset when the OFF bit (0x04) is
set, then an explicit length when the LEN bit (0x02) is set (otherwise the
data runs to the end of the buffer), then the data; the FIN bit is 0x01. -/
def parseStreamFrame (data : List Nat) (offset : Nat) (frameType : Nat) :
    Option (Frame × Nat) := do
  let (streamID, n1) ← parseVarint (data.drop offset)
  let o1 := offset + n1
  let (streamOffset, o2) ←
    if frameType &&& 0x04 ≠ 0 then do
      let (so, n2) ← parseVarint (data.drop o1)
      pure (so, o1 + n2)
    else pure ((0 : Nat), o1)
  let (dataLen, o3) ←
    if frameType &&& 0x02 ≠ 0 then do
      let (dl, n3) ← parseVarint (data.drop o2)
      pure (dl, o2 + n3)
    else pure (data.length - o2, o2)
  if o3 + dataLen > data.length then none
  else
    pure (.stream streamID streamOffset ((data.drop o3).take dataLen)
      (frameType &&& 0x01 != 0), o3 + dataLen - offset)

/-- `parseCryptoFrame`: offset, length, data. -/
def parseCryptoFrame (data : List Nat) (offset : Nat) :
    Option (Frame × Nat) := do
  let (cryptoOffset, n1) ← parseVarint (data.drop offset)
  let (length, n2) ← parseVarint (data.drop (offset + n1))
  let o2 := offset + n1 + n2
  if o2 + length > data.length then none
  else
    pure (.crypto cryptoOffset ((data.drop o2).take length),
      o2 + length - offset)

/-- `parseConnectionCloseFrame`: error code, the triggering frame type (only
for the transport variant 0x1c), reason-phrase length and bytes. -/
def parseConnectionCloseFrame (data : List Nat) (offset : Nat)
    (frameType : Nat) : Option (Frame × Nat) := do
  let (errorCode, n1) ← parseVarint (data.drop offset)
  let o1 := offset + n1
  let isAppError := frameType = 0x1d
  let (triggerType, o2) ←
    if frameType = 0x1d then pure ((0 : Nat), o1)
    else do
      let (tf, n2) ← parseVarint (data.drop o1)
      pure (tf, o1 + n2)
  let (reasonLen, n3) ← parseVarint (data.drop o2)
  let o3 := o2 + n3
  if o3 + reasonLen > data.length then none
  else
    pure (.connClose errorCode triggerType ((data.drop o3).take reasonLen)
      isAppError, o3 + reasonLen - offset)

/-- `ParseFrame` from the frame codec: the first varint is the type code;
STREAM covers the whole 0x08–0x0f block; every other code is rejected
(`none` models both the unsupported-type and the malformed-body errors). -/
def parseFrame (data : List Nat) : Option (Frame × Nat) := do
  let (frameType, n) ← parseVarint data
  if frameType = 0x00 then parsePaddingFrame data n
  else if frameType = 0x01 then pure (.ping, n)
  else if frameType = 0x02 ∨ frameType = 0x03 then
    parseAckFrame data n frameType
  else if frameType = 0x06 then parseCryptoFrame data n
  else if frameType = 0x1c ∨ frameType = 0x1d then
    parseConnectionCloseFrame data n frameType
  else if frameType &&& 0xF8 = 0x08 then parseStreamFrame data n frameType
  else none

/-- A sensible payload for the implemented frame kinds: every numeric field
and length fits a varint (`< 2^62`), a padding run is non-empty, and the
application-error CONNECTION_CLOSE variant carries no triggering frame type
(the wire format has no field for it). -/
def Frame.Sensible : Frame → Prop
  | .ack largestAcked ackDelay ackRanges ect =>
      largestAcked < 2 ^ 62 ∧ ackDelay < 2 ^ 62 ∧
      ackRanges.length < 2 ^ 62 ∧
      (∀ r ∈ ackRanges, r.1 < 2 ^ 62 ∧ r.2 < 2 ^ 62) ∧
      ect.1 < 2 ^ 62 ∧ ect.2.1 < 2 ^ 62 ∧ ect.2.2 < 2 ^ 62
  | .stream streamID offset data _ =>
      streamID < 2 ^ 62 ∧ offset < 2 ^ 62 ∧ data.length < 2 ^ 62
  | .crypto offset data => offset < 2 ^ 62 ∧ data.length < 2 ^ 62
  | .connClose errorCode frameType reasonPhrase isAppError =>
      errorCode < 2 ^ 62 ∧ frameType < 2 ^ 62 ∧
      reasonPhrase.length < 2 ^ 62 ∧ (isAppError = true → frameType = 0)
  | .ping => True
  | .padding paddingLength => 1 ≤ paddingLength

/-- `StreamState` from `internal/stream/stream.go`. -/
inductive StreamState where
  | open'
  | halfClosedLocal
  | halfClosedRemote
  | closed
  | reset
deriving DecidableEq

/-- `StreamData` from `internal/stream/stream.go`: one received segment. -/
structure StreamData where
  offset : Nat
  data : List Nat
  fin : Bool
deriving DecidableEq

/-- The `Stream` fields the receive path and state machine touch.  The Go
`map[uint64]StreamData` receive buffer is a unique-keyed association list
(`getOrderedData` sorts the keys, so iteration order is irrelevant);
`resetError` records whether a non-nil reset error is stored. -/
structure QStream where
  id : Nat
  state : StreamState
  recvBuffer : List (Nat × StreamData)
  recvOffset : Nat
  recvFinished : Bool
  recvFinalOffset : Nat
  maxData : Nat
  recvData : Nat
  resetError : Bool
deriving DecidableEq

/-- `NewStream`: state Open, empty receive buffer. -/
def newStream (id maxData : Nat) : QStream :=
  { id := id, state := .open', recvBuffer := [], recvOffset := 0,
    recvFinished := false, recvFinalOffset := 0, maxData := maxData,
    recvData := 0, resetError := false }

/-- Go map assignment `m[k] = v`: replace the entry for `k` or add it. -/
def mapInsert (k : Nat) (v : StreamData) :
    List (Nat × StreamData) → List (Nat × StreamData)
  | [] => [(k, v)]
  | (k', v') :: rest =>
    if k' = k then (k, v) :: rest else (k', v') :: mapInsert k v rest

/-- Go map lookup `m[k]`. -/
def mapLookup (k : Nat) : List (Nat × StreamData) → Option StreamData
  | [] => none
  | (k', v') :: rest => if k' = k then some v' else mapLookup k rest

/-- Insertion into an ascending list of keys (`sort.Slice` on the collected
map keys — the keys are distinct, so any correct sort gives this order). -/
def insortNat (x : Nat) : List Nat → List Nat
  | [] => [x]
  | y :: ys => if x ≤ y then x :: y :: ys else y :: insortNat x ys

/-- Ascending sort of the receive-buffer keys. -/
def sortNat (l : List Nat) : List Nat := l.foldr insortNat []

/-- The assembly loop of `getOrderedData`: walk the sorted offsets; a
segment starting exactly at the current offset is appended and advances it, a
segment past it stops the walk, a segment behind it is skipped. -/
def orderedLoop (buf : List (Nat × StreamData)) :
    List Nat → Nat → List Nat → List Nat
  | [], _, acc => acc
  | o :: os, cur, acc =>
    if o = cur then
      match mapLookup o buf with
      | some sd => orderedLoop buf os (cur + sd.data.length) (acc ++ sd.data)
      | none => orderedLoop buf os cur acc
    else if o > cur then acc
    else orderedLoop buf os cur acc

/-- `getOrderedData`: the contiguous bytes available from `recvOffset`. -/
def getOrderedData (s : QStream) : List Nat :=
  orderedLoop s.recvBuffer (sortNat (s.recvBuffer.map Prod.fst))
    s.recvOffset []

/-- `consumeData`: advance `recvOffset` and `recvData` by `n` and drop every
segment wholly below the new offset. -/
def consumeData (s : QStream) (n : Nat) : QStream :=
  let newOffset := s.recvOffset + n
  { s with
    recvOffset := newOffset
    recvData := s.recvData + n
    recvBuffer := s.recvBuffer.filter
      (fun e => !(decide (e.1 + e.2.data.length ≤ newOffset))) }

/-- `setState`: only the state field changes (the broadcast has no data
effect). -/
def setState (s : QStream) (st : StreamState) : QStream :=
  { s with state := st }

/-- `Stream.ReceiveData`: rejects on Closed/Reset and on flow-control
violation (`offset+len > maxData`); stores the segment; a FIN sets
`recvFinished` and overwrites `recvFinalOffset`, and moves
Open → HalfClosedRemote, HalfClosedLocal → Closed. -/
def receiveData (s : QStream) (data : List Nat) (offset : Nat) (fin : Bool) :
    Except Unit QStream :=
  if s.state = .closed ∨ s.state = .reset then .error ()
  else if offset + data.length > s.maxData then .error ()
  else
    let s1 := { s with
      recvBuffer := mapInsert offset
        { offset := offset, data := data, fin := fin } s.recvBuffer }
    if fin then
      let s2 := { s1 with
        recvFinished := true
        recvFinalOffset := offset + data.length }
      match s.state with
      | .open' => .ok (setState s2 .halfClosedRemote)
      | .halfClosedLocal => .ok (setState s2 .closed)
      | _ => .ok s2
    else .ok s1

/-- The four ways one iteration of the `Stream.Read` loop can end:
return bytes, return `io.EOF`, return the stored reset error, or park on
the condition variable (`readCond.Wait`). -/
inductive ReadResult where
  | bytes (bs : List Nat)
  | eof
  | resetErr
  | block
deriving DecidableEq

/-- One iteration of the `Stream.Read` loop with a caller buffer of length
`cap`: Closed/Reset return the stored error or EOF; contiguous data is
copied (`n = min cap (available)`) and consumed; HalfClosedRemote with a
received FIN returns EOF; otherwise the reader waits. -/
def readStep (s : QStream) (cap : Nat) : ReadResult × QStream :=
  if s.state = .closed ∨ s.state = .reset then
    (if s.resetError then .resetErr else .eof, s)
  else
    let data := getOrderedData s
    if 0 < data.length then
      let n := min cap data.length
      (.bytes (data.take n), consumeData s n)
    else if s.state = .halfClosedRemote ∧ s.recvFinished then (.eof, s)
    else (.block, s)

/-- Go `uint64` addition. -/
def add64 (a b : Nat) : Nat := (a + b) % 2 ^ 64

/-- Go `uint64` subtraction (wrapping). -/
def sub64 (a b : Nat) : Nat := (a + (2 ^ 64 - b % 2 ^ 64)) % 2 ^ 64

/-- `CubicState` from the congestion-control file. -/
inductive CubicState where
  | slowStart
  | congestionAvoidance
  | fastRecovery
deriving DecidableEq

/-- The integer-valued fields of `CubicCongestionControl`.  The float
constants `cubicC = 0.4` and `betaCubic = 0.7` are set at construction and
never reassigned, so they are folded into the functions that read them; the
fields touched only inside `cubicCongestionAvoidance` / `computeNewWMax`
(`timeToOrigin`, `originPoint`, RTT fields, the timestamps) live behind the
abstract `avoid` parameter of `onAck` below.  `epochStart = none` models the
zero `time.Time`. -/
structure CubicCC where
  maxDatagramSize : Nat
  initialCwnd : Nat
  minCwnd : Nat
  maxCwnd : Nat
  state : CubicState
  congestionWindow : Nat
  slowStartThreshold : Nat
  bytesInFlight : Nat
  wMax : Nat
  epochStart : Option Nat
  lastMaxCwnd : Nat
  endOfRecovery : Nat
  packetsAcked : Nat
  packetsLost : Nat
  largestAcked : Nat
deriving DecidableEq

/-- `NewCubicCongestionControl`: a zero `maxDatagramSize` defaults to 1200;
`cwnd₀ = 10·MSS`, `cwnd_min = 2·MSS`, `cwnd_max = 1000·MSS`, slow start,
`ssthresh = math.MaxUint64`. -/
def newCubic (maxDatagramSize : Nat) : CubicCC :=
  let m := if maxDatagramSize = 0 then 1200 else maxDatagramSize
  { maxDatagramSize := m, initialCwnd := 10 * m, minCwnd := 2 * m,
    maxCwnd := 1000 * m, state := .slowStart, congestionWindow := 10 * m,
    slowStartThreshold := 2 ^ 64 - 1, bytesInFlight := 0, wMax := 0,
    epochStart := none, lastMaxCwnd := 0, endOfRecovery := 0,
    packetsAcked := 0, packetsLost := 0, largestAcked := 0 }

/-- `OnPacketSent`: only records `bytesInFlight` for retransmittable
packets; the packet number is not recorded anywhere. -/
def onPacketSent (c : CubicCC) (_sentTime bytesInFlight _packetNumber
    _bytes : Nat) (isRetransmittable : Bool) : CubicCC :=
  if isRetransmittable then { c with bytesInFlight := bytesInFlight } else c

/-- `isCwndLimitedLocked`: in slow start the sender is window-limited when
`priorInFlight ≥ cwnd/2`; otherwise when `priorInFlight ≥ cwnd − MSS`
(uint64 subtraction). -/
def isCwndLimited (c : CubicCC) (priorInFlight : Nat) : Bool :=
  if c.state = .slowStart then
    decide (priorInFlight ≥ c.congestionWindow / 2)
  else
    decide (priorInFlight ≥ sub64 c.congestionWindow c.maxDatagramSize)

/-- `maybeIncreaseCwndLocked`.  The congestion-avoidance branch
(`cubicCongestionAvoidance`, the only floating-point code on the ACK path)
is the abstract parameter `avoid`, applied to the event time and the state. -/
def maybeIncreaseCwnd (avoid : Nat → CubicCC → CubicCC) (c : CubicCC)
    (ackedBytes priorInFlight eventTime : Nat) : CubicCC :=
  if !isCwndLimited c priorInFlight then c
  else
    let c' :=
      if c.state = .slowStart then
        let c1 := { c with
          congestionWindow := add64 c.congestionWindow ackedBytes }
        if c1.congestionWindow ≥ c1.slowStartThreshold then
          { c1 with state := .congestionAvoidance, epochStart := none }
        else c1
      else avoid eventTime c
    if c'.congestionWindow > c'.maxCwnd then
      { c' with congestionWindow := c'.maxCwnd }
    else c'

/-- `OnAck`: bookkeeping, recovery-exit check (`pn > endOfRecovery` leaves
FastRecovery for CongestionAvoidance), then window growth when not in
recovery.  Returns the updated state and the `exited recovery` flag. -/
def onAck (avoid : Nat → CubicCC → CubicCC) (c : CubicCC)
    (ackedPacketNumber ackedBytes priorInFlight eventTime : Nat) :
    CubicCC × Bool :=
  let c1 := { c with
    packetsAcked := add64 c.packetsAcked 1
    bytesInFlight := sub64 priorInFlight ackedBytes
    largestAcked := if ackedPacketNumber > c.largestAcked then
      ackedPacketNumber else c.largestAcked }
  let priorInRecovery := c1.state = .fastRecovery
  let c2 := if c1.state = .fastRecovery ∧
      ackedPacketNumber > c1.endOfRecovery then
    { c1 with state := .congestionAvoidance, endOfRecovery := 0 }
  else c1
  let inRecovery := c2.state = .fastRecovery
  let c3 := if ¬inRecovery then
    maybeIncreaseCwnd avoid c2 ackedBytes priorInFlight eventTime
  else c2
  (c3, priorInRecovery ∧ ¬inRecovery)

/-- `enterRecoveryLocked`: FastRecovery with
`endOfRecovery = c.largestAcked` (the largest ACKED packet number — the
packet-number argument and the largest SENT number are not used). -/
def enterRecovery (c : CubicCC) (_packetNumber : Nat) : CubicCC :=
  { c with state := .fastRecovery, endOfRecovery := c.largestAcked }

/-- Bit length minus one (floor log2) with explicit fuel so that it reduces
structurally; 128 units of fuel cover every value below `2^128`. -/
def log2fuel : Nat → Nat → Nat
  | 0, _ => 0
  | fuel + 1, n => if n < 2 then 0 else log2fuel fuel (n / 2) + 1

/-- Exact IEEE-754 binary64 model of Go's `uint64(float64(cwnd) * 0.7)`.
The double nearest 0.7 is `3152519739159347 / 2^52`; the exact product
`cwnd * 3152519739159347 / 2^52` is rounded to 53 significant bits
(round-to-nearest, ties-to-even — the result of the `float64`
multiplication), and the final `uint64` conversion truncates toward zero.
Products below `2^53 / 2^52` in magnitude are exact, and `cwnd < 2^64`
keeps the product far from overflow and subnormals. -/
def mulBetaF64 (cwnd : Nat) : Nat :=
  let n := cwnd * 3152519739159347
  if n = 0 then 0
  else
    let b := log2fuel 128 n
    if b < 53 then n / 2 ^ 52
    else
      let r := b - 52
      let q := n / 2 ^ r
      let rem := n % 2 ^ r
      let half := 2 ^ (r - 1)
      let q2 := if half < rem ∨ (rem = half ∧ q % 2 = 1) then q + 1 else q
      q2 * 2 ^ r / 2 ^ 52

/-- `reduceCongestionWindow`: record `wMax`/`lastMaxCwnd`, multiply the
window by `betaCubic = 0.7` in `float64`, clamp below at `minCwnd`, and set
the slow-start threshold to the result. -/
def reduceCongestionWindow (c : CubicCC) : CubicCC :=
  let c1 := { c with
    lastMaxCwnd := c.congestionWindow
    wMax := c.congestionWindow }
  let cw := mulBetaF64 c1.congestionWindow
  let cw2 := if cw < c1.minCwnd then c1.minCwnd else cw
  { c1 with congestionWindow := cw2, slowStartThreshold := cw2 }

/-- The critical-section body of `OnPacketLost` as the source spells it
out, with the recovery check read as the state test that `InRecovery()`
wraps: loss bookkeeping; when not already in FastRecovery, enter it and
reduce the window.  The real method never gets past the recovery check —
see `onPacketLost` below. -/
def onPacketLostBody (c : CubicCC)
    (packetNumber lostBytes priorInFlight : Nat) : CubicCC :=
  let c1 := { c with
    packetsLost := add64 c.packetsLost 1
    bytesInFlight := sub64 priorInFlight lostBytes }
  if c1.state = .fastRecovery then c1
  else reduceCongestionWindow (enterRecovery c1 packetNumber)

/-- `OnPacketLost` as the source actually behaves: after taking
`c.mutex.Lock()` and updating the loss counters, it calls
`c.InRecovery()`, which attempts `c.mutex.RLock()` on the same
`sync.RWMutex`.  Go's RWMutex is not reentrant, so the read lock blocks
forever against the write lock this call already holds: the method never
returns, the mutex is never released, and no state change ever becomes
observable (every reader of the controller takes the same mutex).
`none` models this non-termination on every input; the state the critical
section was meant to compute is `onPacketLostBody`. -/
def onPacketLost (_c : CubicCC)
    (_packetNumber _lostBytes _priorInFlight : Nat) : Option CubicCC :=
  none

-- byte-level facts about the varint tag bits, settled by enumeration

lemma orTag64 : ∀ a, a < 64 →
    a ||| 64 < 128 ∧ (a ||| 64) &&& 192 = 64 ∧ (a ||| 64) &&& 63 = a := by decide

lemma orTag128 : ∀ a, a < 64 →
    a ||| 128 < 256 ∧ (a ||| 128) &&& 192 = 128 ∧ (a ||| 128) &&& 63 = a := by decide

lemma orTag192 : ∀ a, a < 64 →
    a ||| 192 < 256 ∧ (a ||| 192) &&& 192 = 192 ∧ (a ||| 192) &&& 63 = a := by decide

lemma tagSmall : ∀ a, a < 64 → a &&& 192 = 0 ∧ a &&& 63 = a := by decide

/-- One step of the big-endian decode loop undoes one byte of the encoding. -/
lemma decodeStep (v k : Nat) :
    ((v / 2 ^ (k + 8)) <<< 8) ||| (v / 2 ^ k % 256) = v / 2 ^ k := by
  have hlt : v / 2 ^ k % 256 < 2 ^ 8 := Nat.mod_lt _ (by norm_num)
  have hor := Nat.mul_add_lt_is_or hlt (v / 2 ^ (k + 8))
  rw [Nat.shiftLeft_eq, Nat.mul_comm, ← hor]
  have hdiv : v / 2 ^ (k + 8) = v / 2 ^ k / 256 := by
    rw [Nat.div_div_eq_div_mul, pow_add]; norm_num
  rw [hdiv]
  have h2 : (2 : Nat) ^ 8 = 256 := by norm_num
  rw [h2]
  omega

/-- Core varint specification: for `v < 2^62` and an adequate buffer,
`putVarint` produces exactly `varintLen v` bytes and `parseVarint` decodes
them (with any trailing bytes) back to `(v, varintLen v)`. -/
lemma varint_spec (v bufLen : Nat) (hv : v < 2 ^ 62) (hb : varintLen v ≤ bufLen) :
    ∃ bs, putVarint bufLen v = some bs ∧ bs.length = varintLen v ∧
      ∀ rest, parseVarint (bs ++ rest) = some (v, varintLen v) := by
  by_cases h1 : v ≤ 0x3F
  · -- 1-byte form
    have hlen : varintLen v = 1 := by simp [varintLen, h1]
    rw [hlen] at hb
    refine ⟨[v % 256], ?_, by simp [hlen], ?_⟩
    · simp [putVarint, h1]; omega
    · intro rest
      rw [hlen]
      have hvm : v % 256 = v := Nat.mod_eq_of_lt (by omega)
      have hf := tagSmall v (by omega)
      simp only [List.cons_append, List.nil_append, parseVarint, hvm,
        hf.1, hf.2]
      have hL : (1 : Nat) <<< ((0 : Nat) >>> 6) = 1 := by decide
      rw [hL]
      rw [if_neg (by simp only [List.length_cons]; omega)]
      simp [beLoop]
  · by_cases h2 : v ≤ 0x3FFF
    · -- 2-byte form
      have hlen : varintLen v = 2 := by simp [varintLen, h1, h2]
      rw [hlen] at hb
      have ha : v >>> 8 < 64 := by
        rw [Nat.shiftRight_eq_div_pow]; omega
      have hf := orTag64 _ ha
      have hm : (v >>> 8 ||| 64) % 256 = v >>> 8 ||| 64 :=
        Nat.mod_eq_of_lt (by omega)
      refine ⟨[(v >>> 8 ||| 64) % 256, v % 256], ?_, by simp [hlen], ?_⟩
      · simp [putVarint, h1, h2]; omega
      · intro rest
        rw [hlen]
        simp only [List.cons_append, List.nil_append, parseVarint, hm,
          hf.2.1, hf.2.2]
        have hL : (1 : Nat) <<< ((64 : Nat) >>> 6) = 2 := by decide
        rw [hL]
        rw [if_neg (by simp only [List.length_cons]; omega)]
        norm_num [beLoop, List.take]
        simp only [Nat.shiftRight_eq_div_pow]
        have s0 := decodeStep v 0
        norm_num at s0
        rw [s0]
    · by_cases h3 : v ≤ 0x3FFFFFFF
      · -- 4-byte form
        have hlen : varintLen v = 4 := by simp [varintLen, h1, h2, h3]
        rw [hlen] at hb
        have ha : v >>> 24 < 64 := by
          rw [Nat.shiftRight_eq_div_pow]; omega
        have hf := orTag128 _ ha
        have hm : (v >>> 24 ||| 128) % 256 = v >>> 24 ||| 128 :=
          Nat.mod_eq_of_lt (by omega)
        refine ⟨[(v >>> 24 ||| 128) % 256, (v >>> 16) % 256,
                 (v >>> 8) % 256, v % 256], ?_, by simp [hlen], ?_⟩
        · simp [putVarint, h1, h2, h3]; omega
        · intro rest
          rw [hlen]
          simp only [List.cons_append, List.nil_append, parseVarint, hm,
            hf.2.1, hf.2.2]
          have hL : (1 : Nat) <<< ((128 : Nat) >>> 6) = 4 := by decide
          rw [hL]
          rw [if_neg (by simp only [List.length_cons]; omega)]
          norm_num [beLoop, List.take]
          simp only [Nat.shiftRight_eq_div_pow]
          have s16 := decodeStep v 16
          have s8 := decodeStep v 8
          have s0 := decodeStep v 0
          norm_num at s16 s8 s0
          rw [s16, s8, s0]
      · -- 8-byte form
        have h4 : v ≤ 0x3FFFFFFFFFFFFFFF := by omega
        have hlen : varintLen v = 8 := by simp [varintLen, h1, h2, h3]
        rw [hlen] at hb
        have ha : v >>> 56 < 64 := by
          rw [Nat.shiftRight_eq_div_pow]; omega
        have hf := orTag192 _ ha
        have hm : (v >>> 56 ||| 192) % 256 = v >>> 56 ||| 192 :=
          Nat.mod_eq_of_lt (by omega)
        refine ⟨[(v >>> 56 ||| 192) % 256, (v >>> 48) % 256,
                 (v >>> 40) % 256, (v >>> 32) % 256, (v >>> 24) % 256,
                 (v >>> 16) % 256, (v >>> 8) % 256, v % 256], ?_,
               by simp [hlen], ?_⟩
        · simp [putVarint, h1, h2, h3, h4]; omega
        · intro rest
          rw [hlen]
          simp only [List.cons_append, List.nil_append, parseVarint, hm,
            hf.2.1, hf.2.2]
          have hL : (1 : Nat) <<< ((192 : Nat) >>> 6) = 8 := by decide
          rw [hL]
          rw [if_neg (by simp only [List.length_cons]; omega)]
          norm_num [beLoop, List.take]
          simp only [Nat.shiftRight_eq_div_pow]
          have s48 := decodeStep v 48
          have s40 := decodeStep v 40
          have s32 := decodeStep v 32
          have s24 := decodeStep v 24
          have s16 := decodeStep v 16
          have s8 := decodeStep v 8
          have s0 := decodeStep v 0
          norm_num at s48 s40 s32 s24 s16 s8 s0
          rw [s48, s40, s32, s24, s16, s8, s0]

lemma varintLen_le_8 (v : Nat) : varintLen v ≤ 8 := by
  unfold varintLen
  split
  · omega
  · split
    · omega
    · split <;> omega

/-- `vb` form of the varint specification: every value below `2^62`
serializes, and the bytes (with any continuation) parse back to the value
and the byte count. -/
lemma vb_spec (v : Nat) (hv : v < 2 ^ 62) :
    ∃ bs, vb v = some bs ∧ 1 ≤ bs.length ∧
      ∀ rest, parseVarint (bs ++ rest) = some (v, bs.length) := by
  obtain ⟨bs, h1, h2, h3⟩ := varint_spec v 8 hv (varintLen_le_8 v)
  refine ⟨bs, h1, ?_, fun rest => ?_⟩
  · rw [h2]; unfold varintLen; split
    · omega
    · split
      · omega
      · split <;> omega
  · rw [h3 rest, h2]

lemma drop_app (A B : List Nat) : (A ++ B).drop A.length = B :=
  List.drop_left A B

lemma drop_app_add (A B : List Nat) (k : Nat) :
    (A ++ B).drop (A.length + k) = B.drop k := by
  rw [← List.drop_drop, List.drop_left]

lemma countZeros_replicate (k : Nat) :
    countZeros (List.replicate k 0) = k := by
  induction k with
  | zero => rfl
  | succ m ih => rw [List.replicate_succ]; simp [countZeros, ih]; omega

lemma parseVarint_zero_cons (rest : List Nat) :
    parseVarint (0 :: rest) = some (0, 1) := by
  simp [parseVarint, beLoop]

/-- A successful `parseVarint` consumes between 1 byte and the whole
input. -/
lemma parseVarint_bounds {l : List Nat} {v n : Nat}
    (h : parseVarint l = some (v, n)) : 1 ≤ n ∧ n ≤ l.length := by
  cases l with
  | nil => simp [parseVarint] at h
  | cons b0 rest =>
    simp only [parseVarint] at h
    split at h
    · exact absurd h (by simp)
    · rename_i hguard
      simp only [Option.some.injEq, Prod.mk.injEq] at h
      obtain ⟨-, rfl⟩ := h
      have hp : 0 < 1 <<< ((b0 &&& 0xC0) >>> 6) := by
        rw [Nat.shiftLeft_eq]; positivity
      constructor
      · omega
      · simpa using Nat.le_of_not_lt hguard

/-- A successful `parseLongTail` consumes between 1 byte and the whole
input. -/
lemma parseLongTail_bounds {data destConnID srcConnID token : List Nat}
    {firstByte ptype version offset : Nat} {h : Header} {n : Nat}
    (hh : parseLongTail data firstByte ptype version destConnID srcConnID
      token offset = some (h, n)) : 1 ≤ n ∧ n ≤ data.length := by
  simp only [parseLongTail] at hh
  split at hh
  · exact absurd hh (by simp)
  · split at hh
    · exact absurd hh (by simp)
    · rename_i hguard
      simp only [Option.some.injEq, Prod.mk.injEq] at hh
      obtain ⟨-, rfl⟩ := hh
      omega

/-- A successful `parseLongHeader` consumes between 1 byte and the whole
input. -/
lemma parseLongHeader_bounds {data : List Nat} {firstByte : Nat}
    {h : Header} {n : Nat}
    (hh : parseLongHeader data firstByte = some (h, n)) :
    1 ≤ n ∧ n ≤ data.length := by
  simp only [parseLongHeader] at hh
  split at hh
  · exact absurd hh (by simp)
  · split at hh
    · exact absurd hh (by simp)
    · split at hh
      · exact absurd hh (by simp)
      · split at hh
        · exact absurd hh (by simp)
        · split at hh
          · exact absurd hh (by simp)
          · split at hh
            · -- Initial: token varint, then the shared tail
              split at hh
              · exact absurd hh (by simp)
              · split at hh
                · exact absurd hh (by simp)
                · exact parseLongTail_bounds hh
            · split at hh
              · -- Retry: returns right after the connection ids
                rename_i hguard _ _
                simp only [Option.some.injEq, Prod.mk.injEq] at hh
                obtain ⟨-, rfl⟩ := hh
                omega
              · exact parseLongTail_bounds hh

/-- A successful `parseShortHeader` consumes between 1 byte and the whole
input. -/
lemma parseShortHeader_bounds {data : List Nat} {firstByte : Nat}
    {h : Header} {n : Nat}
    (hh : parseShortHeader data firstByte = some (h, n)) :
    1 ≤ n ∧ n ≤ data.length := by
  simp only [parseShortHeader] at hh
  split at hh
  · exact absurd hh (by simp)
  · split at hh
    · exact absurd hh (by simp)
    · rename_i hguard
      simp only [Option.some.injEq, Prod.mk.injEq] at hh
      obtain ⟨-, rfl⟩ := hh
      omega


lemma vb_small {b : Nat} (hb : b ≤ 63) : vb b = some [b] := by
  simp only [vb, putVarint, if_pos hb]
  rw [if_neg (by omega), Nat.mod_eq_of_lt (by omega)]

lemma parseVarint_small_cons (b : Nat) (hb : b ≤ 63) (rest : List Nat) :
    parseVarint (b :: rest) = some (b, 1) := by
  have hf := tagSmall b (by omega)
  simp only [parseVarint, hf.1, hf.2]
  norm_num [beLoop]

/-- Parsing the serialized ACK ranges recovers them and advances the offset
by exactly their wire length. -/
lemma parseRanges_spec (rs : List (Nat × Nat)) :
    ∀ (data RB rest : List Nat) (offset : Nat),
      (∀ r ∈ rs, r.1 < 2 ^ 62 ∧ r.2 < 2 ^ 62) →
      serRanges rs = some RB →
      data.drop offset = RB ++ rest →
      parseRanges data offset rs.length
        = some (rs, offset + RB.length) := by
  induction rs with
  | nil =>
    intro data RB rest offset _ hser hdrop
    simp only [serRanges, Option.some.injEq] at hser
    subst hser
    simp [parseRanges]
  | cons r rs ih =>
    intro data RB rest offset hb hser hdrop
    obtain ⟨G, hG, hG1, hGp⟩ := vb_spec r.1 (hb r (by simp)).1
    obtain ⟨L, hL, hL1, hLp⟩ := vb_spec r.2 (hb r (by simp)).2
    rcases hser' : serRanges rs with _ | RB'
    · rw [serRanges, hG, hL, hser'] at hser
      simp at hser
    · rw [serRanges, hG, hL, hser'] at hser
      simp only [Option.bind_eq_bind, Option.some_bind, Option.pure_def,
        Option.some.injEq] at hser
      subst hser
      have h1 : data.drop offset = G ++ (L ++ (RB' ++ rest)) := by
        rw [hdrop]; simp [List.append_assoc]
      have h2 : data.drop (offset + G.length) = L ++ (RB' ++ rest) := by
        rw [← List.drop_drop, h1, List.drop_left]
      have h3 : data.drop (offset + G.length + L.length)
          = RB' ++ rest := by
        rw [← List.drop_drop, h2, List.drop_left]
      have hrec := ih data RB' rest (offset + G.length + L.length)
        (fun x hx => hb x (by simp [hx])) hser' h3
      simp only [List.length_cons, parseRanges, h1,
        hGp (L ++ (RB' ++ rest)), Option.bind_eq_bind, Option.some_bind,
        h2, hLp (RB' ++ rest), hrec]
      have harith : offset + G.length + L.length + RB'.length
          = offset + (G.length + L.length + RB'.length) := by omega
      simp only [List.length_append, harith]
      rfl

lemma serRanges_some (rs : List (Nat × Nat))
    (hb : ∀ r ∈ rs, r.1 < 2 ^ 62 ∧ r.2 < 2 ^ 62) :
    ∃ RB, serRanges rs = some RB := by
  induction rs with
  | nil => exact ⟨[], rfl⟩
  | cons r rs ih =>
    obtain ⟨G, hG, -, -⟩ := vb_spec r.1 (hb r (by simp)).1
    obtain ⟨L, hL, -, -⟩ := vb_spec r.2 (hb r (by simp)).2
    obtain ⟨RB2, hRB2⟩ := ih (fun x hx => hb x (by simp [hx]))
    exact ⟨G ++ L ++ RB2, by simp [serRanges, hG, hL, hRB2]⟩

/-- C2 counterexample: the spec's frame table lists HANDSHAKE_DONE
(code 0x1e, no fields), whose only wire form is the single type byte;
`ParseFrame` rejects it as an unsupported type, so no frame of that
table-listed kind can round-trip — the codec implements only
PADDING, PING, ACK, ACK_ECN, CRYPTO, STREAM and CONNECTION_CLOSE. -/
theorem C2_handshake_done_unparsed : parseFrame [0x1e] = none := rfl

set_option maxHeartbeats 2000000 in
/-- C2 amended: for every frame kind the codec implements (ACK/ACK_ECN,
STREAM, CRYPTO, CONNECTION_CLOSE both variants, PING, PADDING) and every
sensible payload, the serialized bytes parse back to a frame equal to the
original. -/
theorem C2_implemented_frame_roundtrip (f : Frame) (hs : f.Sensible) :
    ∃ bs n, serializeFrame f = some bs ∧ parseFrame bs = some (f, n) := by
  cases f with
  | ping =>
    refine ⟨[1], 1, rfl, rfl⟩
  | padding k =>
    obtain ⟨m, rfl⟩ : ∃ m, k = m + 1 := ⟨k - 1, by
      have : 1 ≤ k := hs
      omega⟩
    refine ⟨List.replicate (m + 1) 0, m + 1, rfl, ?_⟩
    rw [List.replicate_succ]
    simp only [parseFrame, parseVarint_zero_cons, Option.bind_eq_bind,
      Option.some_bind]
    simp only [if_pos rfl, parsePaddingFrame]
    simp [countZeros_replicate]; omega
  | crypto off D =>
    obtain ⟨hoff, hlen⟩ := hs
    obtain ⟨T, hT, hT1, hTp⟩ := vb_spec 0x06 (by norm_num)
    obtain ⟨O, hO, hO1, hOp⟩ := vb_spec off hoff
    obtain ⟨L, hL, hL1, hLp⟩ := vb_spec D.length hlen
    have hser : serializeFrame (.crypto off D)
        = some (T ++ (O ++ (L ++ D))) := by
      simp [serializeFrame, hT, hO, hL]
    have d1 : (T ++ (O ++ (L ++ D))).drop T.length = O ++ (L ++ D) :=
      drop_app _ _
    have d2 : (T ++ (O ++ (L ++ D))).drop (T.length + O.length)
        = L ++ D := by
      rw [drop_app_add, drop_app]
    have d3 : (T ++ (O ++ (L ++ D))).drop (T.length + O.length + L.length)
        = D := by
      rw [Nat.add_assoc, drop_app_add, drop_app_add, drop_app]
    have hpar : parseFrame (T ++ (O ++ (L ++ D)))
        = some (.crypto off D,
            T.length + O.length + L.length + D.length - T.length) := by
      simp only [parseFrame, hTp (O ++ (L ++ D)), Option.bind_eq_bind,
        Option.some_bind]
      norm_num
      simp only [parseCryptoFrame, d1, hOp (L ++ D), Option.bind_eq_bind,
        Option.some_bind, d2, hLp D, d3]
      rw [if_neg (by simp [List.length_append]; omega)]
      simp only [List.take_length]
      rfl
    exact ⟨_, _, hser, hpar⟩
  | ack la ad rs ect =>
    obtain ⟨e0, e1, e2⟩ := ect
    obtain ⟨hla, had, hrc, hrb, he0, he1, he2⟩ := hs
    obtain ⟨A, hA, hA1, hAp⟩ := vb_spec la hla
    obtain ⟨Dl, hDl, hDl1, hDlp⟩ := vb_spec ad had
    obtain ⟨C, hC, hC1, hCp⟩ := vb_spec rs.length hrc
    obtain ⟨RB, hRB⟩ := serRanges_some rs hrb
    by_cases hecn : 0 < e0 ∨ 0 < e1 ∨ 0 < e2
    · obtain ⟨E0, hE0, hE01, hE0p⟩ := vb_spec e0 he0
      obtain ⟨E1, hE1, hE11, hE1p⟩ := vb_spec e1 he1
      obtain ⟨E2, hE2, hE21, hE2p⟩ := vb_spec e2 he2
      have hser : serializeFrame (.ack la ad rs (e0, e1, e2))
          = some (3 :: (A ++ (Dl ++ (C ++ (RB ++ (E0 ++ (E1 ++ E2)))))))
          := by
        simp [serializeFrame, Frame.type, hecn, vb_small, hA, hDl, hC,
          hRB, hE0, hE1, hE2]
      have d1 : ((3 : Nat) ::
          (A ++ (Dl ++ (C ++ (RB ++ (E0 ++ (E1 ++ E2))))))).drop 1
          = A ++ (Dl ++ (C ++ (RB ++ (E0 ++ (E1 ++ E2))))) := rfl
      have d2 : ((3 : Nat) ::
          (A ++ (Dl ++ (C ++ (RB ++ (E0 ++ (E1 ++ E2))))))).drop
          (1 + A.length) = Dl ++ (C ++ (RB ++ (E0 ++ (E1 ++ E2)))) := by
        rw [← List.drop_drop, d1, List.drop_left]
      have d3 : ((3 : Nat) ::
          (A ++ (Dl ++ (C ++ (RB ++ (E0 ++ (E1 ++ E2))))))).drop
          (1 + A.length + Dl.length)
          = C ++ (RB ++ (E0 ++ (E1 ++ E2))) := by
        rw [← List.drop_drop, d2, List.drop_left]
      have d4 : ((3 : Nat) ::
          (A ++ (Dl ++ (C ++ (RB ++ (E0 ++ (E1 ++ E2))))))).drop
          (1 + A.length + Dl.length + C.length)
          = RB ++ (E0 ++ (E1 ++ E2)) := by
        rw [← List.drop_drop, d3, List.drop_left]
      have d5 : ((3 : Nat) ::
          (A ++ (Dl ++ (C ++ (RB ++ (E0 ++ (E1 ++ E2))))))).drop
          (1 + A.length + Dl.length + C.length + RB.length)
          = E0 ++ (E1 ++ E2) := by
        rw [← List.drop_drop, d4, List.drop_left]
      have d6 : ((3 : Nat) ::
          (A ++ (Dl ++ (C ++ (RB ++ (E0 ++ (E1 ++ E2))))))).drop
          (1 + A.length + Dl.length + C.length + RB.length + E0.length)
          = E1 ++ E2 := by
        rw [← List.drop_drop, d5, List.drop_left]
      have d7 : ((3 : Nat) ::
          (A ++ (Dl ++ (C ++ (RB ++ (E0 ++ (E1 ++ E2))))))).drop
          (1 + A.length + Dl.length + C.length + RB.length + E0.length
            + E1.length) = E2 := by
        rw [← List.drop_drop, d6, List.drop_left]
      have hE2p0 : parseVarint E2 = some (e2, E2.length) := by
        have h := hE2p []
        rwa [List.append_nil] at h
      have hrs := parseRanges_spec rs
        (3 :: (A ++ (Dl ++ (C ++ (RB ++ (E0 ++ (E1 ++ E2)))))))
        RB (E0 ++ (E1 ++ E2)) (1 + A.length + Dl.length + C.length)
        hrb hRB d4
      have hpar : parseFrame
          (3 :: (A ++ (Dl ++ (C ++ (RB ++ (E0 ++ (E1 ++ E2)))))))
          = some (.ack la ad rs (e0, e1, e2),
              1 + A.length + Dl.length + C.length + RB.length + E0.length
                + E1.length + E2.length - 1) := by
        simp only [parseFrame,
          parseVarint_small_cons 3 (by norm_num)
            (A ++ (Dl ++ (C ++ (RB ++ (E0 ++ (E1 ++ E2)))))),
          Option.bind_eq_bind, Option.some_bind]
        norm_num
        simp only [parseAckFrame, List.drop_succ_cons, List.drop_zero,
          hAp (Dl ++ (C ++ (RB ++ (E0 ++ (E1 ++ E2))))),
          Option.bind_eq_bind, Option.some_bind]
        rw [d2, hDlp (C ++ (RB ++ (E0 ++ (E1 ++ E2))))]
        simp only [Option.some_bind]
        rw [d3, hCp (RB ++ (E0 ++ (E1 ++ E2)))]
        simp only [Option.some_bind]
        rw [hrs]
        simp only [Option.some_bind]
        norm_num
        rw [d5, hE0p (E1 ++ E2)]
        simp only [Option.some_bind]
        rw [d6, hE1p E2]
        simp only [Option.some_bind]
        rw [d7, hE2p0]
        simp only [Option.some_bind]
      exact ⟨_, _, hser, hpar⟩
    · have hz0 : e0 = 0 := by omega
      have hz1 : e1 = 0 := by omega
      have hz2 : e2 = 0 := by omega
      subst hz0
      subst hz1
      subst hz2
      have hser : serializeFrame (.ack la ad rs (0, 0, 0))
          = some (2 :: (A ++ (Dl ++ (C ++ RB)))) := by
        simp [serializeFrame, Frame.type, vb_small, hA, hDl, hC, hRB]
      have d1 : ((2 : Nat) :: (A ++ (Dl ++ (C ++ RB)))).drop 1
          = A ++ (Dl ++ (C ++ RB)) := rfl
      have d2 : ((2 : Nat) :: (A ++ (Dl ++ (C ++ RB)))).drop
          (1 + A.length) = Dl ++ (C ++ RB) := by
        rw [← List.drop_drop, d1, List.drop_left]
      have d3 : ((2 : Nat) :: (A ++ (Dl ++ (C ++ RB)))).drop
          (1 + A.length + Dl.length) = C ++ RB := by
        rw [← List.drop_drop, d2, List.drop_left]
      have d4 : ((2 : Nat) :: (A ++ (Dl ++ (C ++ RB)))).drop
          (1 + A.length + Dl.length + C.length) = RB ++ [] := by
        rw [← List.drop_drop, d3, List.drop_left, List.append_nil]
      have hrs := parseRanges_spec rs
        (2 :: (A ++ (Dl ++ (C ++ RB)))) RB []
        (1 + A.length + Dl.length + C.length) hrb hRB d4
      have hpar : parseFrame (2 :: (A ++ (Dl ++ (C ++ RB))))
          = some (.ack la ad rs (0, 0, 0),
              1 + A.length + Dl.length + C.length + RB.length - 1) := by
        simp only [parseFrame,
          parseVarint_small_cons 2 (by norm_num)
            (A ++ (Dl ++ (C ++ RB))),
          Option.bind_eq_bind, Option.some_bind]
        norm_num
        simp only [parseAckFrame, List.drop_succ_cons, List.drop_zero,
          hAp (Dl ++ (C ++ RB)), Option.bind_eq_bind, Option.some_bind]
        rw [d2, hDlp (C ++ RB)]
        simp only [Option.some_bind]
        rw [d3, hCp RB]
        simp only [Option.some_bind]
        rw [hrs]
        simp only [Option.some_bind]
        norm_num
      exact ⟨_, _, hser, hpar⟩
  | stream sid off D fin =>
    obtain ⟨hsid, hoff62, hlen62⟩ := hs
    obtain ⟨I, hI, hI1, hIp⟩ := vb_spec sid hsid
    by_cases h0 : 0 < off
    · by_cases hD : 0 < D.length
      · obtain ⟨O, hO, hO1, hOp⟩ := vb_spec off hoff62
        obtain ⟨L, hL, hL1, hLp⟩ := vb_spec D.length hlen62
        cases fin with
        | true =>
          have hser : serializeFrame (.stream sid off D true)
              = some (15 :: (I ++ (O ++ (L ++ (D))))) := by
            simp [serializeFrame, Frame.type, vb_small, hI, hO, hL, h0, hD]
          have d1 : ((15 : Nat) :: (I ++ (O ++ (L ++ (D))))).drop 1
              = I ++ (O ++ (L ++ (D))) := rfl
          have d2 : ((15 : Nat) :: (I ++ (O ++ (L ++ (D))))).drop
              (1 + I.length) = O ++ (L ++ (D)) := by
            rw [← List.drop_drop, d1, List.drop_left]
          have d3 : ((15 : Nat) :: (I ++ (O ++ (L ++ (D))))).drop
              (1 + I.length + O.length) = L ++ (D) := by
            rw [← List.drop_drop, d2, List.drop_left]
          have d4 : ((15 : Nat) :: (I ++ (O ++ (L ++ (D))))).drop
              (1 + I.length + O.length + L.length) = D := by
            rw [← List.drop_drop, d3, List.drop_left]
          have hpar : parseFrame (15 :: (I ++ (O ++ (L ++ (D)))))
              = some (.stream sid off D true, 1 + I.length + O.length + L.length + D.length - 1) := by
            simp only [parseFrame,
              parseVarint_small_cons 15 (by norm_num) (I ++ (O ++ (L ++ (D)))),
              Option.bind_eq_bind, Option.some_bind]
            norm_num [(by decide : ((15 : Nat)) &&& 248 = 8)]
            simp only [parseStreamFrame, List.drop_succ_cons,
              List.drop_zero, hIp (O ++ (L ++ (D))), Option.bind_eq_bind,
              Option.some_bind,
              (by decide : ((15 : Nat)) &&& 4 = 4),
              (by decide : ((15 : Nat)) &&& 2 = 2),
              (by decide : (((15 : Nat)) &&& 1 != 0) = true)]
            norm_num
            rw [d2, hOp (L ++ (D))]
            simp only [Option.some_bind]
            rw [d3, hLp D]
            simp only [Option.some_bind]
            rw [if_neg (by omega), d4, List.take_length]
          exact ⟨_, _, hser, hpar⟩
        | false =>
          have hser : serializeFrame (.stream sid off D false)
              = some (14 :: (I ++ (O ++ (L ++ (D))))) := by
            simp [serializeFrame, Frame.type, vb_small, hI, hO, hL, h0, hD]
          have d1 : ((14 : Nat) :: (I ++ (O ++ (L ++ (D))))).drop 1
              = I ++ (O ++ (L ++ (D))) := rfl
          have d2 : ((14 : Nat) :: (I ++ (O ++ (L ++ (D))))).drop
              (1 + I.length) = O ++ (L ++ (D)) := by
            rw [← List.drop_drop, d1, List.drop_left]
          have d3 : ((14 : Nat) :: (I ++ (O ++ (L ++ (D))))).drop
              (1 + I.length + O.length) = L ++ (D) := by
            rw [← List.drop_drop, d2, List.drop_left]
          have d4 : ((14 : Nat) :: (I ++ (O ++ (L ++ (D))))).drop
              (1 + I.length + O.length + L.length) = D := by
            rw [← List.drop_drop, d3, List.drop_left]
          have hpar : parseFrame (14 :: (I ++ (O ++ (L ++ (D)))))
              = some (.stream sid off D false, 1 + I.length + O.length + L.length + D.length - 1) := by
            simp only [parseFrame,
              parseVarint_small_cons 14 (by norm_num) (I ++ (O ++ (L ++ (D)))),
              Option.bind_eq_bind, Option.some_bind]
            norm_num [(by decide : ((14 : Nat)) &&& 248 = 8)]
            simp only [parseStreamFrame, List.drop_succ_cons,
              List.drop_zero, hIp (O ++ (L ++ (D))), Option.bind_eq_bind,
              Option.some_bind,
              (by decide : ((14 : Nat)) &&& 4 = 4),
              (by decide : ((14 : Nat)) &&& 2 = 2),
              (by decide : (((14 : Nat)) &&& 1 != 0) = false)]
            norm_num
            rw [d2, hOp (L ++ (D))]
            simp only [Option.some_bind]
            rw [d3, hLp D]
            simp only [Option.some_bind]
            rw [if_neg (by omega), d4, List.take_length]
          exact ⟨_, _, hser, hpar⟩
      · have hDnil : D = [] := by
          cases D with
          | nil => rfl
          | cons a as => simp at hD
        subst hDnil
        obtain ⟨O, hO, hO1, hOp⟩ := vb_spec off hoff62
        cases fin with
        | true =>
          have hser : serializeFrame (.stream sid off [] true)
              = some (13 :: (I ++ (O))) := by
            simp [serializeFrame, Frame.type, vb_small, hI, hO, h0]
          have d1 : ((13 : Nat) :: (I ++ (O))).drop 1
              = I ++ (O) := rfl
          have d2 : ((13 : Nat) :: (I ++ (O))).drop
              (1 + I.length) = O := by
            rw [← List.drop_drop, d1, List.drop_left]
          have hpar : parseFrame (13 :: (I ++ (O)))
              = some (.stream sid off [] true, 1 + I.length + O.length + 0 - 1) := by
            simp only [parseFrame,
              parseVarint_small_cons 13 (by norm_num) (I ++ (O)),
              Option.bind_eq_bind, Option.some_bind]
            norm_num [(by decide : ((13 : Nat)) &&& 248 = 8)]
            simp only [parseStreamFrame, List.drop_succ_cons,
              List.drop_zero, hIp (O), Option.bind_eq_bind,
              Option.some_bind,
              (by decide : ((13 : Nat)) &&& 4 = 4),
              (by decide : ((13 : Nat)) &&& 2 = 0),
              (by decide : (((13 : Nat)) &&& 1 != 0) = true)]
            norm_num
            have hOp0 : parseVarint O = some (off, O.length) := by
              have h := hOp []
              rwa [List.append_nil] at h
            rw [d2, hOp0]
            simp only [Option.some_bind]
            have hz : I.length + O.length + 1 - (1 + I.length + O.length) = 0 := by
              omega
            rw [hz]
            rw [if_neg (by omega), List.take_zero]
            norm_num
          exact ⟨_, _, hser, hpar⟩
        | false =>
          have hser : serializeFrame (.stream sid off [] false)
              = some (12 :: (I ++ (O))) := by
            simp [serializeFrame, Frame.type, vb_small, hI, hO, h0]
          have d1 : ((12 : Nat) :: (I ++ (O))).drop 1
              = I ++ (O) := rfl
          have d2 : ((12 : Nat) :: (I ++ (O))).drop
              (1 + I.length) = O := by
            rw [← List.drop_drop, d1, List.drop_left]
          have hpar : parseFrame (12 :: (I ++ (O)))
              = some (.stream sid off [] false, 1 + I.length + O.length + 0 - 1) := by
            simp only [parseFrame,
              parseVarint_small_cons 12 (by norm_num) (I ++ (O)),
              Option.bind_eq_bind, Option.some_bind]
            norm_num [(by decide : ((12 : Nat)) &&& 248 = 8)]
            simp only [parseStreamFrame, List.drop_succ_cons,
              List.drop_zero, hIp (O), Option.bind_eq_bind,
              Option.some_bind,
              (by decide : ((12 : Nat)) &&& 4 = 4),
              (by decide : ((12 : Nat)) &&& 2 = 0),
              (by decide : (((12 : Nat)) &&& 1 != 0) = false)]
            norm_num
            have hOp0 : parseVarint O = some (off, O.length) := by
              have h := hOp []
              rwa [List.append_nil] at h
            rw [d2, hOp0]
            simp only [Option.some_bind]
            have hz : I.length + O.length + 1 - (1 + I.length + O.length) = 0 := by
              omega
            rw [hz]
            rw [if_neg (by omega), List.take_zero]
            norm_num
          exact ⟨_, _, hser, hpar⟩
    · have hoff0 : off = 0 := by omega
      subst hoff0
      by_cases hD : 0 < D.length
      · obtain ⟨L, hL, hL1, hLp⟩ := vb_spec D.length hlen62
        cases fin with
        | true =>
          have hser : serializeFrame (.stream sid 0 D true)
              = some (11 :: (I ++ (L ++ (D)))) := by
            simp [serializeFrame, Frame.type, vb_small, hI, hL, hD]
          have d1 : ((11 : Nat) :: (I ++ (L ++ (D)))).drop 1
              = I ++ (L ++ (D)) := rfl
          have d2 : ((11 : Nat) :: (I ++ (L ++ (D)))).drop
              (1 + I.length) = L ++ (D) := by
            rw [← List.drop_drop, d1, List.drop_left]
          have d3 : ((11 : Nat) :: (I ++ (L ++ (D)))).drop
              (1 + I.length + L.length) = D := by
            rw [← List.drop_drop, d2, List.drop_left]
          have hpar : parseFrame (11 :: (I ++ (L ++ (D))))
              = some (.stream sid 0 D true, 1 + I.length + L.length + D.length - 1) := by
            simp only [parseFrame,
              parseVarint_small_cons 11 (by norm_num) (I ++ (L ++ (D))),
              Option.bind_eq_bind, Option.some_bind]
            norm_num [(by decide : ((11 : Nat)) &&& 248 = 8)]
            simp only [parseStreamFrame, List.drop_succ_cons,
              List.drop_zero, hIp (L ++ (D)), Option.bind_eq_bind,
              Option.some_bind,
              (by decide : ((11 : Nat)) &&& 4 = 0),
              (by decide : ((11 : Nat)) &&& 2 = 2),
              (by decide : (((11 : Nat)) &&& 1 != 0) = true)]
            norm_num
            rw [d2, hLp D]
            simp only [Option.some_bind]
            rw [if_neg (by omega), d3, List.take_length]
          exact ⟨_, _, hser, hpar⟩
        | false =>
          have hser : serializeFrame (.stream sid 0 D false)
              = some (10 :: (I ++ (L ++ (D)))) := by
            simp [serializeFrame, Frame.type, vb_small, hI, hL, hD]
          have d1 : ((10 : Nat) :: (I ++ (L ++ (D)))).drop 1
              = I ++ (L ++ (D)) := rfl
          have d2 : ((10 : Nat) :: (I ++ (L ++ (D)))).drop
              (1 + I.length) = L ++ (D) := by
            rw [← List.drop_drop, d1, List.drop_left]
          have d3 : ((10 : Nat) :: (I ++ (L ++ (D)))).drop
              (1 + I.length + L.length) = D := by
            rw [← List.drop_drop, d2, List.drop_left]
          have hpar : parseFrame (10 :: (I ++ (L ++ (D))))
              = some (.stream sid 0 D false, 1 + I.length + L.length + D.length - 1) := by
            simp only [parseFrame,
              parseVarint_small_cons 10 (by norm_num) (I ++ (L ++ (D))),
              Option.bind_eq_bind, Option.some_bind]
            norm_num [(by decide : ((10 : Nat)) &&& 248 = 8)]
            simp only [parseStreamFrame, List.drop_succ_cons,
              List.drop_zero, hIp (L ++ (D)), Option.bind_eq_bind,
              Option.some_bind,
              (by decide : ((10 : Nat)) &&& 4 = 0),
              (by decide : ((10 : Nat)) &&& 2 = 2),
              (by decide : (((10 : Nat)) &&& 1 != 0) = false)]
            norm_num
            rw [d2, hLp D]
            simp only [Option.some_bind]
            rw [if_neg (by omega), d3, List.take_length]
          exact ⟨_, _, hser, hpar⟩
      · have hDnil : D = [] := by
          cases D with
          | nil => rfl
          | cons a as => simp at hD
        subst hDnil
        cases fin with
        | true =>
          have hser : serializeFrame (.stream sid 0 [] true)
              = some (9 :: (I)) := by
            simp [serializeFrame, Frame.type, vb_small, hI]
          have d1 : ((9 : Nat) :: (I)).drop 1
              = I := rfl
          have hpar : parseFrame (9 :: (I))
              = some (.stream sid 0 [] true, 1 + I.length + 0 - 1) := by
            simp only [parseFrame,
              parseVarint_small_cons 9 (by norm_num) (I),
              Option.bind_eq_bind, Option.some_bind]
            norm_num [(by decide : ((9 : Nat)) &&& 248 = 8)]
            have hIp0 : parseVarint I = some (sid, I.length) := by
              have h := hIp []
              rwa [List.append_nil] at h
            simp only [parseStreamFrame, List.drop_succ_cons,
              List.drop_zero, hIp0, Option.bind_eq_bind,
              Option.some_bind,
              (by decide : ((9 : Nat)) &&& 4 = 0),
              (by decide : ((9 : Nat)) &&& 2 = 0),
              (by decide : (((9 : Nat)) &&& 1 != 0) = true)]
            norm_num
            omega
          exact ⟨_, _, hser, hpar⟩
        | false =>
          have hser : serializeFrame (.stream sid 0 [] false)
              = some (8 :: (I)) := by
            simp [serializeFrame, Frame.type, vb_small, hI]
          have d1 : ((8 : Nat) :: (I)).drop 1
              = I := rfl
          have hpar : parseFrame (8 :: (I))
              = some (.stream sid 0 [] false, 1 + I.length + 0 - 1) := by
            simp only [parseFrame,
              parseVarint_small_cons 8 (by norm_num) (I),
              Option.bind_eq_bind, Option.some_bind]
            norm_num [(by decide : ((8 : Nat)) &&& 248 = 8)]
            have hIp0 : parseVarint I = some (sid, I.length) := by
              have h := hIp []
              rwa [List.append_nil] at h
            simp only [parseStreamFrame, List.drop_succ_cons,
              List.drop_zero, hIp0, Option.bind_eq_bind,
              Option.some_bind,
              (by decide : ((8 : Nat)) &&& 4 = 0),
              (by decide : ((8 : Nat)) &&& 2 = 0),
              (by decide : (((8 : Nat)) &&& 1 != 0) = false)]
            norm_num
            omega
          exact ⟨_, _, hser, hpar⟩
  | connClose ec ft reason app =>
    obtain ⟨hec, hft, hrl, happ⟩ := hs
    obtain ⟨E, hE, hE1, hEp⟩ := vb_spec ec hec
    obtain ⟨RL, hRL, hRL1, hRLp⟩ := vb_spec reason.length hrl
    cases app with
    | true =>
      have hft0 : ft = 0 := happ rfl
      subst hft0
      have hser : serializeFrame (.connClose ec 0 reason true)
          = some (0x1d :: (E ++ (RL ++ reason))) := by
        simp [serializeFrame, Frame.type, vb_small, hE, hRL]
      have d1 : ((0x1d : Nat) :: (E ++ (RL ++ reason))).drop 1
          = E ++ (RL ++ reason) := rfl
      have d2 : ((0x1d : Nat) :: (E ++ (RL ++ reason))).drop
          (1 + E.length) = RL ++ reason := by
        rw [← List.drop_drop, d1, List.drop_left]
      have d3 : ((0x1d : Nat) :: (E ++ (RL ++ reason))).drop
          (1 + E.length + RL.length) = reason := by
        rw [← List.drop_drop, d2, List.drop_left]
      have hpar : parseFrame (0x1d :: (E ++ (RL ++ reason)))
          = some (.connClose ec 0 reason true,
              1 + E.length + RL.length + reason.length - 1) := by
        simp only [parseFrame,
          parseVarint_small_cons 0x1d (by norm_num) (E ++ (RL ++ reason)),
          Option.bind_eq_bind, Option.some_bind]
        norm_num
        simp only [parseConnectionCloseFrame, d1, hEp (RL ++ reason),
          Option.bind_eq_bind, Option.some_bind]
        norm_num
        rw [d2, hRLp reason]
        simp only [Option.some_bind]
        rw [d3, List.take_length, if_neg (by omega)]
      exact ⟨_, _, hser, hpar⟩
    | false =>
      obtain ⟨F, hF, hF1, hFp⟩ := vb_spec ft hft
      have hser : serializeFrame (.connClose ec ft reason false)
          = some (0x1c :: (E ++ (F ++ (RL ++ reason)))) := by
        simp [serializeFrame, Frame.type, vb_small, hE, hF, hRL]
      have d1 : ((0x1c : Nat) :: (E ++ (F ++ (RL ++ reason)))).drop 1
          = E ++ (F ++ (RL ++ reason)) := rfl
      have d2 : ((0x1c : Nat) :: (E ++ (F ++ (RL ++ reason)))).drop
          (1 + E.length) = F ++ (RL ++ reason) := by
        rw [← List.drop_drop, d1, List.drop_left]
      have d3 : ((0x1c : Nat) :: (E ++ (F ++ (RL ++ reason)))).drop
          (1 + E.length + F.length) = RL ++ reason := by
        rw [← List.drop_drop, d2, List.drop_left]
      have d4 : ((0x1c : Nat) :: (E ++ (F ++ (RL ++ reason)))).drop
          (1 + E.length + F.length + RL.length) = reason := by
        rw [← List.drop_drop, d3, List.drop_left]
      have hpar : parseFrame (0x1c :: (E ++ (F ++ (RL ++ reason))))
          = some (.connClose ec ft reason false,
              1 + E.length + F.length + RL.length + reason.length - 1) := by
        simp only [parseFrame,
          parseVarint_small_cons 0x1c (by norm_num)
            (E ++ (F ++ (RL ++ reason))),
          Option.bind_eq_bind, Option.some_bind]
        norm_num
        simp only [parseConnectionCloseFrame, d1,
          hEp (F ++ (RL ++ reason)), Option.bind_eq_bind, Option.some_bind]
        norm_num
        rw [d2, hFp (RL ++ reason)]
        simp only [Option.some_bind]
        rw [d3, hRLp reason]
        simp only [Option.some_bind]
        rw [d4, List.take_length, if_neg (by omega)]
      exact ⟨_, _, hser, hpar⟩


/-- C2 witness: the round-trip at a concrete CRYPTO frame. -/
theorem C2_implemented_frame_roundtrip_witness :
    ∃ bs n, serializeFrame (Frame.crypto 5 [1, 2, 3]) = some bs ∧
      parseFrame bs = some (Frame.crypto 5 [1, 2, 3], n) :=
  C2_implemented_frame_roundtrip (Frame.crypto 5 [1, 2, 3])
    ⟨by norm_num, by norm_num⟩


end QUIC

/-- C1: for every `v < 2^62` (and a buffer at least as long as the chosen
form), `putVarint` writes the shortest of the 1/2/4/8-byte forms
(`varintLen v` bytes) and `parseVarint` recovers exactly `(v, len(encode(v)))`
from those bytes. -/
theorem C1_varint_roundtrip (v bufLen : Nat) (hv : v < 2 ^ 62)
    (hb : QUIC.varintLen v ≤ bufLen) :
    ∃ bs, QUIC.putVarint bufLen v = some bs ∧
      bs.length = QUIC.varintLen v ∧
      QUIC.parseVarint bs = some (v, bs.length) := by
  obtain ⟨bs, h1, h2, h3⟩ := QUIC.varint_spec v bufLen hv hb
  refine ⟨bs, h1, h2, ?_⟩
  have := h3 []
  rw [List.append_nil] at this
  rw [this, h2]

/-- C1 witness: the round-trip at `v = 300`, `bufLen = 8`. -/
theorem C1_varint_roundtrip_witness :
    300 < 2 ^ 62 ∧ QUIC.varintLen 300 ≤ 8 ∧
    ∃ bs, QUIC.putVarint 8 300 = some bs ∧
      bs.length = QUIC.varintLen 300 ∧
      QUIC.parseVarint bs = some (300, bs.length) :=
  ⟨by norm_num, by decide, C1_varint_roundtrip 300 8 (by norm_num) (by decide)⟩

/-- C3 counterexample: after a fresh stream receives a FIN-bearing segment
at offset 5 with a gap before it (`recv_consumed_offset = 0 <
recv_final_offset = 6`, no contiguous bytes), `Read` returns EOF — the
claim says it must never return EOF while the consumed offset is strictly
below the received FIN's final offset. -/
theorem C3_read_eof_gap_counterexample :
    (QUIC.receiveData (QUIC.newStream 4 1024) [120] 5 true).map
      (fun s1 => ((QUIC.readStep s1 10).1,
        decide (s1.recvOffset < s1.recvFinalOffset))) =
    .ok (.eof, true) := rfl

/-- C3 amended: one iteration of the `Read` loop blocks exactly when the
stream is not Closed/Reset, no contiguous bytes are available, and it is
not the case that the state is HalfClosedRemote with a FIN received; it
returns EOF exactly when the stream is Closed/Reset without a stored reset
error, or when no contiguous bytes are available, the state is
HalfClosedRemote and a FIN has been received — regardless of whether
`recvOffset` has reached `recvFinalOffset`. -/
theorem C3_read_block_eof_characterization (s : QUIC.QStream) (cap : Nat) :
    ((QUIC.readStep s cap).1 = .block ↔
      (¬(s.state = .closed ∨ s.state = .reset) ∧
        QUIC.getOrderedData s = [] ∧
        ¬(s.state = .halfClosedRemote ∧ s.recvFinished))) ∧
    ((QUIC.readStep s cap).1 = .eof ↔
      (((s.state = .closed ∨ s.state = .reset) ∧ s.resetError = false) ∨
        (¬(s.state = .closed ∨ s.state = .reset) ∧
          QUIC.getOrderedData s = [] ∧
          s.state = .halfClosedRemote ∧ s.recvFinished))) := by
  unfold QUIC.readStep
  by_cases h1 : s.state = .closed ∨ s.state = .reset
  · rcases h2 : s.resetError with _ | _ <;> simp [h1, h2]
  · by_cases h3 : QUIC.getOrderedData s = []
    · by_cases h4 : s.state = .halfClosedRemote ∧ s.recvFinished <;>
        simp [h1, h3, h4]
    · have : 0 < (QUIC.getOrderedData s).length :=
        List.length_pos.mpr h3
      simp [h1, h3, this]

/-- C4 counterexample: a first FIN fixes `recvFinalOffset = 2`; a second
FIN-bearing segment implying final offset 3 is nevertheless accepted and
overwrites `recvFinalOffset` — the claim says it must be rejected with an
error, leaving the receive state unchanged. -/
theorem C4_final_offset_overwritten_counterexample :
    (QUIC.receiveData (QUIC.newStream 4 1024) [97, 98] 0 true).bind
      (fun u1 => (QUIC.receiveData u1 [97, 98, 99] 0 true).map
        (fun u2 => (u1.recvFinalOffset, u2.recvFinalOffset))) =
    .ok (2, 3) := rfl

/-- C4 amended: `ReceiveData` performs no FIN-consistency check — any
FIN-bearing segment that passes the state check and flow control is
accepted, sets `recvFinished`, and overwrites `recvFinalOffset` with its
own `offset + len`, whatever the previously recorded value was. -/
theorem C4_final_offset_overwrite (s : QUIC.QStream) (data : List Nat)
    (offset : Nat) (h1 : ¬(s.state = .closed ∨ s.state = .reset))
    (h2 : offset + data.length ≤ s.maxData) :
    ∃ s', QUIC.receiveData s data offset true = .ok s' ∧
      s'.recvFinalOffset = offset + data.length ∧
      s'.recvFinished = true := by
  unfold QUIC.receiveData
  rw [if_neg h1, if_neg (by omega)]
  cases hs : s.state <;> simp [QUIC.setState]

/-- C4 witness: the amended overwrite behaviour at a concrete segment. -/
theorem C4_final_offset_overwrite_witness :
    ∃ s', QUIC.receiveData (QUIC.newStream 4 1024) [97] 3 true = .ok s' ∧
      s'.recvFinalOffset = 3 + [97].length ∧
      s'.recvFinished = true :=
  C4_final_offset_overwrite (QUIC.newStream 4 1024) [97] 3
    (by decide) (by decide)

/-- C5 (code bug): on a fresh CUBIC controller with MSS 1200
(`cwnd = 12000`), `OnPacketSent` followed by
`OnAck(pn = 1, acked = 1200, priorInFlight = 1200)` leaves the congestion
window at exactly 12000 in state SlowStart — no increase happens, because
`isCwndLimitedLocked` requires `priorInFlight ≥ cwnd/2 = 6000`.  The spec
and the repository's own `TestSlowStart` expect `cwnd > 12000`.  The
result holds for every congestion-avoidance routine `avoid` and event
time `t`, since that code path is not reached. -/
theorem C5_slowstart_ack_no_increase
    (avoid : Nat → QUIC.CubicCC → QUIC.CubicCC) (t : Nat) :
    ((QUIC.onAck avoid
        (QUIC.onPacketSent (QUIC.newCubic 1200) 0 1200 1 1200 true)
        1 1200 1200 t).1.congestionWindow = 12000) ∧
    ((QUIC.onAck avoid
        (QUIC.onPacketSent (QUIC.newCubic 1200) 0 1200 1 1200 true)
        1 1200 1200 t).1.state = .slowStart) :=
  ⟨rfl, rfl⟩

/-- C6 (code bug): `OnPacketLost(pn = 1, lost = 1200, priorInFlight =
1200)` on a fresh controller with MSS 1200 never completes — holding
`mutex.Lock()`, it calls `InRecovery()`, which blocks forever acquiring
`mutex.RLock()` on the same non-reentrant RWMutex — so the controller
never exhibits the claimed values.  The critical-section body it was
meant to run would have produced exactly them: window 8400
(`uint64(float64(12000) * 0.7)`, not below `minCwnd = 2400`), slow-start
threshold 8400, state FastRecovery — the outcome the claim, the spec's
non-blocking requirement and the repository's own loss tests expect. -/
theorem C6_loss_deadlock_intended_reduction :
    QUIC.onPacketLost (QUIC.newCubic 1200) 1 1200 1200 = none ∧
    (QUIC.onPacketLostBody (QUIC.newCubic 1200) 1 1200 1200).congestionWindow
      = 8400 ∧
    (QUIC.onPacketLostBody (QUIC.newCubic 1200) 1 1200 1200).slowStartThreshold
      = 8400 ∧
    (QUIC.onPacketLostBody (QUIC.newCubic 1200) 1 1200 1200).state
      = .fastRecovery ∧
    (QUIC.newCubic 1200).minCwnd = 2400 ∧
    (QUIC.newCubic 1200).minCwnd ≤ 8400 := by decide

/-- C7 counterexample: after `OnPacketSent` with packet number 10,
`OnPacketLost(pn = 1, ...)` does not leave `end_of_recovery = 10`: the
call self-deadlocks at its `InRecovery()` check and never completes, so
it yields no controller state at all; and even the critical-section body
it was meant to run sets `endOfRecovery` to `largestAcked` — 0 here,
since `OnPacketSent` ignores its packet-number argument — not 10. -/
theorem C7_end_of_recovery_counterexample :
    QUIC.onPacketLost
        (QUIC.onPacketSent (QUIC.newCubic 1200) 0 1200 10 1200 true)
        1 1200 1200 = none ∧
    (QUIC.onPacketLostBody
        (QUIC.onPacketSent (QUIC.newCubic 1200) 0 1200 10 1200 true)
        1 1200 1200).endOfRecovery ≠ 10 ∧
    (QUIC.onPacketLostBody
        (QUIC.onPacketSent (QUIC.newCubic 1200) 0 1200 10 1200 true)
        1 1200 1200).endOfRecovery = 0 := by decide

/-- C7 amended: every `OnPacketLost` call blocks forever at its
`InRecovery()` check (a read lock of the RWMutex whose write lock the
call already holds), so it never enters FastRecovery and never modifies
`end_of_recovery`; the critical-section body it was intended to run, when
the controller is not already in FastRecovery, enters FastRecovery with
`endOfRecovery` equal to the largest ACKED packet number (`largestAcked`)
— not the largest packet number sent, which the controller never
records. -/
theorem C7_end_of_recovery_largest_acked (c : QUIC.CubicCC)
    (pn lost prior : Nat) (h : c.state ≠ .fastRecovery) :
    QUIC.onPacketLost c pn lost prior = none ∧
    (QUIC.onPacketLostBody c pn lost prior).state = .fastRecovery ∧
    (QUIC.onPacketLostBody c pn lost prior).endOfRecovery
      = c.largestAcked := by
  refine ⟨rfl, ?_⟩
  unfold QUIC.onPacketLostBody QUIC.reduceCongestionWindow
    QUIC.enterRecovery
  simp [h]

/-- C7 witness: the amended behaviour on a fresh controller. -/
theorem C7_end_of_recovery_largest_acked_witness :
    QUIC.onPacketLost (QUIC.newCubic 1200) 1 1200 1200 = none ∧
    (QUIC.onPacketLostBody (QUIC.newCubic 1200) 1 1200 1200).state
      = .fastRecovery ∧
    (QUIC.onPacketLostBody (QUIC.newCubic 1200) 1 1200 1200).endOfRecovery
      = (QUIC.newCubic 1200).largestAcked :=
  C7_end_of_recovery_largest_acked (QUIC.newCubic 1200) 1 1200 1200
    (by decide)

/-- C8: the 27-byte buffer
`C0 00 00 00 01 08 01..08 08 11..18 00 40 64 01` parses as a long header of
kind Initial (type 0), version 1, dest-id `01..08`, src-id `11..18`, empty
token, length field 100, packet number 1, consuming exactly 27 bytes. -/
theorem C8_header_parse :
    QUIC.parseHeader [0xC0, 0x00, 0x00, 0x00, 0x01,
        0x08, 0x01, 0x02, 0x03, 0x04, 0x05, 0x06, 0x07, 0x08,
        0x08, 0x11, 0x12, 0x13, 0x14, 0x15, 0x16, 0x17, 0x18,
        0x00, 0x40, 0x64, 0x01] =
      some ({ type := 0x00, version := 1,
              destConnID := [1, 2, 3, 4, 5, 6, 7, 8],
              srcConnID := [0x11, 0x12, 0x13, 0x14, 0x15, 0x16, 0x17, 0x18],
              packetNumber := 1, token := [], length := 100,
              isLongHeader := true }, 27) := rfl

/-- C9: on a fresh stream (id 4, `maxData = 1024`), delivering
(6, "World", no FIN), (0, "Hello ", no FIN), (11, "!", FIN) lets a single
read return the 12 bytes "Hello World!", the next read return EOF, and
leaves the stream HalfClosedRemote. -/
theorem C9_stream_reassembly :
    ((QUIC.receiveData (QUIC.newStream 4 1024)
        [87, 111, 114, 108, 100] 6 false).bind (fun s1 =>
      (QUIC.receiveData s1 [72, 101, 108, 108, 111, 32] 0 false).bind
        (fun s2 => (QUIC.receiveData s2 [33] 11 true).map (fun s3 =>
          ((QUIC.readStep s3 100).1,
           (QUIC.readStep (QUIC.readStep s3 100).2 100).1,
           (QUIC.readStep s3 100).2.state))))) =
    .ok (.bytes [72, 101, 108, 108, 111, 32, 87, 111, 114, 108, 100, 33],
         .eof, .halfClosedRemote) := rfl

/-- C10: `ParseHeader` is total and in-bounds on every input: it either
fails or returns a header with a consumed length `n` satisfying
`1 ≤ n ≤ len(data)` — every buffer access in the long- and short-header
paths is behind an explicit length check. -/
theorem C10_parseHeader_total_bounded (data : List Nat) :
    QUIC.parseHeader data = none ∨
    ∃ h n, QUIC.parseHeader data = some (h, n) ∧ 1 ≤ n ∧
      n ≤ data.length := by
  rcases hp : QUIC.parseHeader data with _ | ⟨h, n⟩
  · exact Or.inl rfl
  · refine Or.inr ⟨h, n, rfl, ?_⟩
    cases data with
    | nil => simp [QUIC.parseHeader] at hp
    | cons b rest =>
      simp only [QUIC.parseHeader] at hp
      split at hp
      · exact QUIC.parseLongHeader_bounds hp
      · exact QUIC.parseShortHeader_bounds hp
